import Mathlib

/-!
Verification of the life-insurance quoting backend (`main.py`, `schemas.py`).

The numeric model uses `ℚ` for Python floats and `ℤ` for Python ints.
Python's `round` (banker's rounding, ties to even) is modelled exactly by
`roundHalfEven`; Python list indexing (including the negative-index
convention) is modelled by `pyGet`, returning `none` where Python would
raise `IndexError`.  Fallible code is `Option`-valued; everything else is
a plain function, so the embedding is pure by construction.
-/

section Model

attribute [local semireducible] Rat.mul Rat.add Rat.sub Rat.inv

/-- Gender literal from `schemas.QuoteRequest.gender : Literal["male", "female", "other"]`. -/
inductive Gender where
  | male
  | female
  | other
deriving DecidableEq

/-- Schema `Insurer` from `schemas.py`. -/
structure Insurer where
  name : String
  logo_url : Option String := none
  rating : ℚ := 9/2
  tagline : Option String := none
deriving DecidableEq

/-- Schema `Plan` from `schemas.py`. -/
structure Plan where
  insurer_id : String
  name : String
  coverage_amount : ℤ
  term_years : ℤ
  smoker_multiplier : ℚ := 3/2
  male_factor : ℚ := 1
  age_band : List ℤ := [25, 35, 45, 55]
  base_rates : List ℚ
  features : List String := []
deriving DecidableEq

/-- Schema `QuoteRequest` from `schemas.py`. -/
structure QuoteRequest where
  first_name : Option String := none
  age : ℤ
  gender : Gender := Gender.male
  smoker : Bool := false
  coverage_amount : ℤ
  term_years : ℤ
deriving DecidableEq

/-- Schema `Quote` from `schemas.py`. -/
structure Quote where
  request_id : String
  insurer_name : String
  plan_name : String
  monthly_premium : ℚ
  coverage_amount : ℤ
  term_years : ℤ
  features : List String := []
deriving DecidableEq

/-- Pydantic field constraints on `Plan` (`ge`/`le` bounds in `schemas.py`). -/
def Plan.SchemaValid (p : Plan) : Prop :=
  10000 ≤ p.coverage_amount ∧
  5 ≤ p.term_years ∧ p.term_years ≤ 40 ∧
  1 ≤ p.smoker_multiplier ∧ p.smoker_multiplier ≤ 3 ∧
  4/5 ≤ p.male_factor ∧ p.male_factor ≤ 3/2

instance (p : Plan) : Decidable p.SchemaValid := by
  unfold Plan.SchemaValid
  infer_instance

/-- Pydantic field constraints on `QuoteRequest` (`ge`/`le` bounds in `schemas.py`). -/
def QuoteRequest.Valid (r : QuoteRequest) : Prop :=
  18 ≤ r.age ∧ r.age ≤ 70 ∧
  50000 ≤ r.coverage_amount ∧ r.coverage_amount ≤ 2000000 ∧
  5 ≤ r.term_years ∧ r.term_years ≤ 40

instance (r : QuoteRequest) : Decidable r.Valid := by
  unfold QuoteRequest.Valid
  infer_instance

/-- Python `round` on an exact rational: round to the nearest integer,
ties going to the even integer (banker's rounding). -/
def roundHalfEven (q : ℚ) : ℤ :=
  if q - q.floor < 1/2 then q.floor
  else if 1/2 < q - q.floor then q.floor + 1
  else if q.floor % 2 = 0 then q.floor else q.floor + 1

/-- Python `round(x, 2)`: round to two decimal places, ties to even. -/
def round2 (q : ℚ) : ℚ :=
  (roundHalfEven (q * 100) : ℚ) / 100

/-- Python list indexing `l[i]`: supports negative indices from the end;
out-of-range access (Python `IndexError`) is `none`. -/
def pyGet (l : List ℚ) (i : ℤ) : Option ℚ :=
  if 0 ≤ i then l.get? i.toNat
  else if 0 ≤ (l.length : ℤ) + i then l.get? ((l.length : ℤ) + i).toNat
  else none

/-- Band-selection loop of `premium_from_plan` (`main.py` lines 121-124):
`idx = 0; for i, b in enumerate(bands): if req.age >= b: idx = i`. -/
def band_idx (bands : List ℤ) (age : ℤ) : ℕ :=
  bands.enum.foldl (fun idx ib => if ib.2 ≤ age then ib.1 else idx) 0

/-- Clamp of `premium_from_plan` (`main.py` line 125):
`idx = min(idx, len(rates) - 1)`, computed over Python ints. -/
def clamped_idx (p : Plan) (req : QuoteRequest) : ℤ :=
  min (band_idx p.age_band req.age : ℤ) ((p.base_rates.length : ℤ) - 1)

/-- Lines 127-129 of `main.py`: base-rate lookup followed by the gender and
smoker multipliers. -/
def per_100k (p : Plan) (req : QuoteRequest) : Option ℚ :=
  (pyGet p.base_rates (clamped_idx p req)).map fun r =>
    r * (if req.gender = Gender.male then p.male_factor else 1)
      * (if req.smoker then p.smoker_multiplier else 1)

/-- Line 131 of `main.py`: `units = max(1, round(req.coverage_amount / 100000))`. -/
def units_of (req : QuoteRequest) : ℤ :=
  max 1 (roundHalfEven ((req.coverage_amount : ℚ) / 100000))

/-- Line 133 of `main.py`:
`term_adj = 1.0 + max(0, (req.term_years - plan.term_years)) * 0.01`. -/
def term_adj (p : Plan) (req : QuoteRequest) : ℚ :=
  1 + (max 0 (req.term_years - p.term_years) : ℤ) * (1/100)

/-- Function `premium_from_plan` (`main.py` lines 115-135).  `none` exactly when the
rate lookup would raise `IndexError` (empty `base_rates`). -/
def premium_from_plan (p : Plan) (req : QuoteRequest) : Option ℚ :=
  (per_100k p req).map fun r =>
    round2 (r * (units_of req : ℚ) * term_adj p req)

/-- Lookup in `insurers_by_id` (`main.py` line 163, used at line 170).
The dict keyed by `str(_id)` is modelled as an association list with unique
keys; `dict.get` is `find?`. -/
def lookup_insurer (insurers : List (String × Insurer)) (k : String) : Option Insurer :=
  (insurers.find? fun e => e.1 = k).map Prod.snd

/-- Quote construction (`main.py` lines 173-181): coverage and term are
echoed from the request, name and features come from the plan. -/
def mk_quote (request_id : String) (req : QuoteRequest) (p : Plan) (ins : Insurer)
    (prem : ℚ) : Quote :=
  { request_id := request_id
    insurer_name := ins.name
    plan_name := p.name
    monthly_premium := prem
    coverage_amount := req.coverage_amount
    term_years := req.term_years
    features := p.features }

/-- Quote-building loop of `get_quote` (`main.py` lines 167-182): for each
plan in catalog order, compute the premium (this happens before the insurer
lookup, so a failing premium aborts with `none` like the Python exception),
then skip the plan silently when no insurer matches. -/
def build_quotes (request_id : String) (req : QuoteRequest)
    (insurers : List (String × Insurer)) : List Plan → Option (List Quote)
  | [] => some []
  | p :: ps => do
    let prem ← premium_from_plan p req
    let rest ← build_quotes request_id req insurers ps
    match lookup_insurer insurers p.insurer_id with
    | none => pure rest
    | some ins => pure (mk_quote request_id req p ins prem :: rest)

/-- Sort key of `main.py` line 184: `quotes.sort(key=lambda x: x.monthly_premium)`. -/
def quote_le (a b : Quote) : Bool :=
  a.monthly_premium ≤ b.monthly_premium

/-- Core of the `POST /quote` handler (`main.py` lines 167-188) after the
catalog has been fetched: build one quote per plan with a live insurer and
sort ascending by premium.  Python's `list.sort` is stable; it is modelled
by `List.mergeSort`, which is also stable. -/
def get_quote (request_id : String) (req : QuoteRequest) (plans : List Plan)
    (insurers : List (String × Insurer)) : Option (List Quote) :=
  (build_quotes request_id req insurers plans).map fun qs => qs.mergeSort quote_le

/-- Response model of `POST /seed` (`main.py` lines 51-53). -/
structure SeedStatus where
  insurers : ℕ
  plans : ℕ
deriving DecidableEq

/-- Catalog portion of the database touched by `seed_data`: the `insurer`
collection (with its opaque ids) and the `plan` collection. -/
structure DB where
  insurers : List (String × Insurer)
  plans : List Plan
deriving DecidableEq

/-- Demo insurers inserted by `seed_data` (`main.py` lines 64-66); ids
assigned on insert are opaque and modelled as fixed distinct tokens. -/
def seed_insurers : List (String × Insurer) :=
  [("acme_id", { name := "Acme Life", logo_url := none, rating := 23/5,
                 tagline := some "Protect what matters" }),
   ("shield_id", { name := "ShieldGuard", logo_url := none, rating := 22/5,
                   tagline := some "Coverage you can count on" }),
   ("family_id", { name := "FamilyFirst", logo_url := none, rating := 47/10,
                   tagline := some "For the ones you love" })]

/-- Demo plans inserted by `seed_data` (`main.py` lines 68-102). -/
def seed_plans : List Plan :=
  [{ insurer_id := "acme_id", name := "Term Secure", coverage_amount := 250000,
     term_years := 20, smoker_multiplier := 17/10, male_factor := 21/20,
     age_band := [25, 35, 45, 55], base_rates := [12, 18, 29, 48],
     features := ["Accelerated benefits", "Level premiums", "Convertible"] },
   { insurer_id := "shield_id", name := "Guardian Term", coverage_amount := 500000,
     term_years := 30, smoker_multiplier := 9/5, male_factor := 103/100,
     age_band := [25, 35, 45, 55], base_rates := [15, 22, 36, 60],
     features := ["Online application", "Living benefits", "Critical illness rider"] },
   { insurer_id := "family_id", name := "Family Promise", coverage_amount := 300000,
     term_years := 20, smoker_multiplier := 8/5, male_factor := 51/50,
     age_band := [25, 35, 45, 55], base_rates := [13, 39/2, 31, 50],
     features := ["Child rider", "Waiver of premium", "No exam up to $250k"] }]

/-- Function `seed_data` (`main.py` lines 56-110): count both collections; if both are
non-empty return the existing counts unchanged, otherwise insert the three
demo insurers and the three demo plans and return the resulting counts. -/
def seed_data (s : DB) : DB × SeedStatus :=
  let insurers_count := s.insurers.length
  let plans_count := s.plans.length
  if 0 < insurers_count ∧ 0 < plans_count then
    (s, { insurers := insurers_count, plans := plans_count })
  else
    let s' : DB := { insurers := s.insurers ++ seed_insurers,
                     plans := s.plans ++ seed_plans }
    (s', { insurers := s'.insurers.length, plans := s'.plans.length })

/-! Characterisation of the band-selection loop.  `lastLE age bs` is the
index of the last entry of `bs` that is `≤ age`, when one exists. -/

/-- Index of the last element `≤ age`, as a recursive specification used to
reason about the fold in `band_idx`. -/
def lastLE (age : ℤ) : List ℤ → Option ℕ
  | [] => none
  | b :: bs =>
    match lastLE age bs with
    | some j => some (j + 1)
    | none => if b ≤ age then some 0 else none

lemma foldl_band_step (age : ℤ) (bs : List ℤ) (n acc : ℕ) :
    (List.enumFrom n bs).foldl (fun idx ib => if ib.2 ≤ age then ib.1 else idx) acc
      = match lastLE age bs with
        | some j => n + j
        | none => acc := by
  induction bs generalizing n acc with
  | nil => rfl
  | cons b bs ih =>
    simp only [List.enumFrom, List.foldl_cons, lastLE]
    rw [ih]
    cases h : lastLE age bs with
    | some j => dsimp only; ring
    | none => dsimp only; split_ifs <;> simp

lemma band_idx_eq_lastLE (bands : List ℤ) (age : ℤ) :
    band_idx bands age = (lastLE age bands).getD 0 := by
  unfold band_idx
  rw [show bands.enum = List.enumFrom 0 bands from rfl, foldl_band_step]
  cases lastLE age bands <;> simp

lemma lastLE_none_iff (age : ℤ) (bs : List ℤ) :
    lastLE age bs = none ↔ ∀ b ∈ bs, age < b := by
  induction bs with
  | nil => simp [lastLE]
  | cons b bs ih =>
    simp only [lastLE, List.mem_cons]
    cases h : lastLE age bs with
    | some j =>
      have hnall : ¬ ∀ b ∈ bs, age < b := fun hall => by
        rw [ih.mpr hall] at h
        cases h
      constructor
      · intro hc
        cases hc
      · intro hall
        exact absurd (fun x hx => hall x (Or.inr hx)) hnall
    | none =>
      have hall := ih.mp h
      constructor
      · intro hc x hx
        rcases hx with rfl | hx
        · by_contra hb
          push_neg at hb
          rw [if_pos hb] at hc
          cases hc
        · exact hall x hx
      · intro hc
        rw [if_neg (not_le.mpr (hc b (Or.inl rfl)))]

lemma lastLE_some_lt (age : ℤ) (bs : List ℤ) (j : ℕ)
    (h : lastLE age bs = some j) : j < bs.length := by
  induction bs generalizing j with
  | nil => cases h
  | cons b bs ih =>
    simp only [lastLE] at h
    cases hb : lastLE age bs with
    | some k =>
      rw [hb] at h
      cases h
      have := ih k hb
      simp only [List.length_cons]
      omega
    | none =>
      rw [hb] at h
      split_ifs at h
      cases h
      simp

lemma lastLE_some_le (age : ℤ) (bs : List ℤ) (j : ℕ)
    (h : lastLE age bs = some j) (hj : j < bs.length) :
    bs.get ⟨j, hj⟩ ≤ age := by
  induction bs generalizing j with
  | nil => cases h
  | cons b bs ih =>
    simp only [lastLE] at h
    cases hb : lastLE age bs with
    | some k =>
      rw [hb] at h
      cases h
      have hk := lastLE_some_lt age bs k hb
      simpa using ih k hb hk
    | none =>
      rw [hb] at h
      split_ifs at h with hble
      cases h
      simpa using hble

lemma lastLE_some_ge (age : ℤ) (bs : List ℤ) (j : ℕ)
    (h : lastLE age bs = some j) :
    ∀ k (hk : k < bs.length), bs.get ⟨k, hk⟩ ≤ age → k ≤ j := by
  induction bs generalizing j with
  | nil => intro k hk; cases hk
  | cons b bs ih =>
    intro k hk hkle
    simp only [lastLE] at h
    cases hb : lastLE age bs with
    | some m =>
      rw [hb] at h
      cases h
      cases k with
      | zero => omega
      | succ k =>
        have hk2 : k < bs.length := by simpa using hk
        have := ih m hb k hk2 (by simpa using hkle)
        omega
    | none =>
      rw [hb] at h
      split_ifs at h
      cases h
      cases k with
      | zero => omega
      | succ k =>
        have hk2 : k < bs.length := by simpa using hk
        have := (lastLE_none_iff age bs).mp hb (bs.get ⟨k, hk2⟩) (bs.get_mem _ _)
        have hc : bs.get ⟨k, hk2⟩ ≤ age := by simpa using hkle
        omega

/-! Bounds on the clamped index and totality of the rate lookup. -/

lemma band_idx_lt (bands : List ℤ) (age : ℤ) (hb : bands ≠ []) :
    band_idx bands age < bands.length := by
  rw [band_idx_eq_lastLE]
  cases h : lastLE age bands with
  | some j => simpa using lastLE_some_lt age bands j h
  | none => simpa using List.length_pos.mpr hb

lemma clamped_idx_nonneg (p : Plan) (req : QuoteRequest) (hr : p.base_rates ≠ []) :
    0 ≤ clamped_idx p req := by
  have h1 : 1 ≤ p.base_rates.length := List.length_pos.mpr hr
  unfold clamped_idx
  omega

lemma clamped_idx_lt (p : Plan) (req : QuoteRequest) :
    clamped_idx p req < p.base_rates.length := by
  unfold clamped_idx
  omega

lemma pyGet_eq_getD (l : List ℚ) (i : ℤ) (h0 : 0 ≤ i) (hl : i < l.length) :
    pyGet l i = some (l.getD i.toNat 0) := by
  unfold pyGet
  rw [if_pos h0, List.getD_eq_get?, List.get?_eq_get (show i.toNat < l.length by omega)]
  rfl

lemma per_100k_some (p : Plan) (req : QuoteRequest) (hr : p.base_rates ≠ []) :
    per_100k p req =
      some (p.base_rates.getD (clamped_idx p req).toNat 0
        * (if req.gender = Gender.male then p.male_factor else 1)
        * (if req.smoker then p.smoker_multiplier else 1)) := by
  unfold per_100k
  rw [pyGet_eq_getD p.base_rates (clamped_idx p req)
    (clamped_idx_nonneg p req hr) (clamped_idx_lt p req)]
  rfl

lemma premium_some (p : Plan) (req : QuoteRequest) (hr : p.base_rates ≠ []) :
    premium_from_plan p req =
      some (round2 ((p.base_rates.getD (clamped_idx p req).toNat 0
        * (if req.gender = Gender.male then p.male_factor else 1)
        * (if req.smoker then p.smoker_multiplier else 1))
        * (units_of req : ℚ) * term_adj p req)) := by
  unfold premium_from_plan
  rw [per_100k_some p req hr]
  rfl

/-! Monotonicity of the two roundings, and sign facts for the premium. -/

lemma rat_floor_eq (q : ℚ) : q.floor = ⌊q⌋ := rfl

lemma floor_le_roundHalfEven (q : ℚ) : q.floor ≤ roundHalfEven q := by
  unfold roundHalfEven
  split_ifs <;> omega

lemma roundHalfEven_le_floor_add_one (q : ℚ) : roundHalfEven q ≤ q.floor + 1 := by
  unfold roundHalfEven
  split_ifs <;> omega

lemma roundHalfEven_mono {a b : ℚ} (h : a ≤ b) :
    roundHalfEven a ≤ roundHalfEven b := by
  have hf : ⌊a⌋ ≤ ⌊b⌋ := Int.floor_mono h
  rcases lt_or_eq_of_le hf with hlt | heq
  · calc roundHalfEven a ≤ a.floor + 1 := roundHalfEven_le_floor_add_one a
      _ ≤ b.floor := by rw [rat_floor_eq, rat_floor_eq]; omega
      _ ≤ roundHalfEven b := floor_le_roundHalfEven b
  · have hc : ((⌊a⌋ : ℤ) : ℚ) = ((⌊b⌋ : ℤ) : ℚ) := by exact_mod_cast heq
    unfold roundHalfEven
    rw [rat_floor_eq a, rat_floor_eq b]
    split_ifs <;> first | omega | linarith

lemma round2_mono {a b : ℚ} (h : a ≤ b) : round2 a ≤ round2 b := by
  unfold round2
  have h1 : roundHalfEven (a * 100) ≤ roundHalfEven (b * 100) :=
    roundHalfEven_mono (by linarith)
  have h2 : ((roundHalfEven (a * 100) : ℤ) : ℚ) ≤ ((roundHalfEven (b * 100) : ℤ) : ℚ) := by
    exact_mod_cast h1
  linarith

lemma one_le_units_of (req : QuoteRequest) : 1 ≤ units_of req :=
  le_max_left 1 _

lemma units_of_add_100000 (req : QuoteRequest) :
    units_of req ≤ units_of { req with coverage_amount := req.coverage_amount + 100000 } := by
  unfold units_of
  dsimp only
  have key : ((req.coverage_amount : ℚ)) / 100000 ≤
      (((req.coverage_amount + 100000 : ℤ) : ℚ)) / 100000 := by
    push_cast
    linarith
  have := roundHalfEven_mono key
  omega

lemma one_le_term_adj (p : Plan) (req : QuoteRequest) : 1 ≤ term_adj p req := by
  unfold term_adj
  have h0 : (0 : ℤ) ≤ max 0 (req.term_years - p.term_years) := le_max_left 0 _
  have h1 : (0 : ℚ) ≤ ((max 0 (req.term_years - p.term_years) : ℤ) : ℚ) := by
    exact_mod_cast h0
  linarith

lemma gender_factor_nonneg (p : Plan) (req : QuoteRequest) (hp : p.SchemaValid) :
    0 ≤ (if req.gender = Gender.male then p.male_factor else 1) := by
  obtain ⟨-, -, -, -, -, hmf, -⟩ := hp
  split_ifs <;> linarith

lemma smoker_factor_nonneg (p : Plan) (req : QuoteRequest) (hp : p.SchemaValid) :
    0 ≤ (if req.smoker then p.smoker_multiplier else 1) := by
  obtain ⟨-, -, -, hsm, -, -, -⟩ := hp
  split_ifs <;> linarith

lemma selected_rate_nonneg (p : Plan) (req : QuoteRequest)
    (hnn : ∀ r ∈ p.base_rates, 0 ≤ r) (h : (clamped_idx p req).toNat < p.base_rates.length) :
    0 ≤ p.base_rates.getD (clamped_idx p req).toNat 0 := by
  have he : p.base_rates.getD (clamped_idx p req).toNat 0
      = p.base_rates.get ⟨(clamped_idx p req).toNat, h⟩ := by
    rw [List.getD_eq_get?, List.get?_eq_get h]
    rfl
  rw [he]
  exact hnn _ (p.base_rates.get_mem _ _)

lemma pyGet_mem {l : List ℚ} {i : ℤ} {r : ℚ} (h : pyGet l i = some r) : r ∈ l := by
  unfold pyGet at h
  split_ifs at h <;> exact List.get?_mem h

lemma premium_isSome (p : Plan) (req : QuoteRequest) (hr : p.base_rates ≠ []) :
    ∃ q, premium_from_plan p req = some q :=
  ⟨_, premium_some p req hr⟩

lemma premium_mono_coverage (p : Plan) (req : QuoteRequest)
    (hp : p.SchemaValid) (hnn : ∀ r ∈ p.base_rates, 0 ≤ r)
    {q1 q2 : ℚ}
    (h1 : premium_from_plan p req = some q1)
    (h2 : premium_from_plan p
      { req with coverage_amount := req.coverage_amount + 100000 } = some q2) :
    q1 ≤ q2 := by
  have hT := one_le_term_adj p req
  unfold premium_from_plan per_100k units_of at h1 h2
  unfold term_adj at h1 h2 hT
  unfold clamped_idx band_idx at h1 h2
  dsimp only at h1 h2
  cases hg : pyGet p.base_rates
      (min ((p.age_band.enum.foldl
        (fun idx ib => if ib.2 ≤ req.age then ib.1 else idx) 0 : ℕ) : ℤ)
        ((p.base_rates.length : ℤ) - 1)) with
  | none => rw [hg] at h1; cases h1
  | some r =>
    rw [hg] at h1 h2
    simp only [Option.map_some'] at h1 h2
    cases h1
    cases h2
    apply round2_mono
    have hrn : (0 : ℚ) ≤ r := hnn r (pyGet_mem hg)
    have hP : 0 ≤ r * (if req.gender = Gender.male then p.male_factor else 1)
        * (if req.smoker then p.smoker_multiplier else 1) :=
      mul_nonneg (mul_nonneg hrn (gender_factor_nonneg p req hp))
        (smoker_factor_nonneg p req hp)
    have hu : (max 1 (roundHalfEven ((req.coverage_amount : ℚ) / 100000)) : ℤ) ≤
        max 1 (roundHalfEven (((req.coverage_amount + 100000 : ℤ) : ℚ) / 100000)) := by
      have := roundHalfEven_mono
        (show ((req.coverage_amount : ℚ)) / 100000 ≤
            (((req.coverage_amount + 100000 : ℤ) : ℚ)) / 100000 by push_cast; linarith)
      omega
    have hu' : ((max 1 (roundHalfEven ((req.coverage_amount : ℚ) / 100000)) : ℤ) : ℚ) ≤
        ((max 1 (roundHalfEven (((req.coverage_amount + 100000 : ℤ) : ℚ) / 100000)) : ℤ) : ℚ) := by
      exact_mod_cast hu
    have h5 := mul_le_mul_of_nonneg_left hu' hP
    exact mul_le_mul_of_nonneg_right h5 (by linarith)

lemma premium_mono_smoker (p : Plan) (req : QuoteRequest)
    (hp : p.SchemaValid) (hnn : ∀ r ∈ p.base_rates, 0 ≤ r) (hr : p.base_rates ≠ [])
    (hns : req.smoker = false)
    {q1 q2 : ℚ}
    (h1 : premium_from_plan p req = some q1)
    (h2 : premium_from_plan p { req with smoker := true } = some q2) :
    q1 ≤ q2 := by
  have hT := one_le_term_adj p req
  have hu1 := one_le_units_of req
  have hgf := gender_factor_nonneg p req hp
  have hsm1 : 1 ≤ p.smoker_multiplier := hp.2.2.2.1
  rw [premium_some p req hr] at h1
  rw [premium_some p { req with smoker := true } hr] at h2
  have e1 : clamped_idx p { req with smoker := true } = clamped_idx p req := rfl
  have e2 : units_of { req with smoker := true } = units_of req := rfl
  have e3 : term_adj p { req with smoker := true } = term_adj p req := rfl
  have e4 : ({ req with smoker := true } : QuoteRequest).gender = req.gender := rfl
  have e5 : ({ req with smoker := true } : QuoteRequest).smoker = true := rfl
  rw [e1, e2, e3, e4, e5] at h2
  rw [hns] at h1
  rw [if_pos rfl] at h2
  rw [if_neg Bool.false_ne_true] at h1
  obtain rfl : _ = q1 := Option.some.inj h1
  obtain rfl : _ = q2 := Option.some.inj h2
  apply round2_mono
  have hrn : (0 : ℚ) ≤ p.base_rates.getD (clamped_idx p req).toNat 0 :=
    selected_rate_nonneg p req hnn (by
      have := clamped_idx_lt p req
      have := clamped_idx_nonneg p req hr
      omega)
  have hrg : 0 ≤ p.base_rates.getD (clamped_idx p req).toNat 0
      * (if req.gender = Gender.male then p.male_factor else 1) :=
    mul_nonneg hrn hgf
  have hs := mul_le_mul_of_nonneg_left hsm1 hrg
  have hu0 : (0 : ℚ) ≤ ((units_of req : ℤ) : ℚ) := by
    have : (0 : ℤ) ≤ units_of req := by omega
    exact_mod_cast this
  have h5 := mul_le_mul_of_nonneg_right hs hu0
  exact mul_le_mul_of_nonneg_right h5 (by linarith)

/-! Shape of the quote-building loop and stability of the final sort. -/

lemma build_quotes_eq_filterMap (rid : String) (req : QuoteRequest)
    (insurers : List (String × Insurer)) (plans : List Plan)
    (h : ∀ p ∈ plans, p.base_rates ≠ []) :
    build_quotes rid req insurers plans =
      some (plans.filterMap fun p =>
        (premium_from_plan p req).bind fun prem =>
          (lookup_insurer insurers p.insurer_id).map fun ins =>
            mk_quote rid req p ins prem) := by
  induction plans with
  | nil => rfl
  | cons p ps ih =>
    obtain ⟨q, hq⟩ := premium_isSome p req (h p (List.mem_cons_self p ps))
    have ih' := ih fun x hx => h x (List.mem_cons_of_mem p hx)
    simp only [build_quotes, hq, ih', List.filterMap_cons, Option.some_bind]
    cases hl : lookup_insurer insurers p.insurer_id with
    | none => simp
    | some ins => simp

lemma build_quotes_length (rid : String) (req : QuoteRequest)
    (insurers : List (String × Insurer)) (plans : List Plan)
    (h : ∀ p ∈ plans, p.base_rates ≠ []) :
    ∃ qs, build_quotes rid req insurers plans = some qs ∧
      qs.length = (plans.filter fun p =>
        (lookup_insurer insurers p.insurer_id).isSome).length := by
  refine ⟨_, build_quotes_eq_filterMap rid req insurers plans h, ?_⟩
  induction plans with
  | nil => rfl
  | cons p ps ih =>
    obtain ⟨q, hq⟩ := premium_isSome p req (h p (List.mem_cons_self p ps))
    have ih' := ih fun x hx => h x (List.mem_cons_of_mem p hx)
    simp only [List.filterMap_cons, List.filter_cons, hq, Option.some_bind]
    cases hl : lookup_insurer insurers p.insurer_id with
    | none => simpa [hl] using ih'
    | some ins => simpa [hl] using ih'

lemma quote_le_trans (a b c : Quote) (h1 : quote_le a b) (h2 : quote_le b c) :
    quote_le a c := by
  simp only [quote_le, decide_eq_true_eq] at h1 h2 ⊢
  exact le_trans h1 h2

lemma quote_le_total (a b : Quote) : quote_le a b || quote_le b a := by
  simp only [quote_le, Bool.or_eq_true, decide_eq_true_eq]
  exact le_total _ _

lemma mergeSort_sorted_premium (qs : List Quote) :
    (qs.mergeSort quote_le).Pairwise
      (fun a b => a.monthly_premium ≤ b.monthly_premium) := by
  have h := List.sorted_mergeSort quote_le_trans quote_le_total qs
  exact h.imp fun hab => by simpa [quote_le] using hab

lemma mergeSort_stable_premium (qs : List Quote) (v : ℚ) :
    (qs.mergeSort quote_le).filter (fun q => q.monthly_premium = v)
      = qs.filter (fun q => q.monthly_premium = v) := by
  have hpair : (qs.filter (fun q => q.monthly_premium = v)).Pairwise
      (fun a b => quote_le a b = true) := by
    apply List.pairwise_of_forall_mem_list
    intro a ha b hb
    have ha' := List.of_mem_filter ha
    have hb' := List.of_mem_filter hb
    simp only [decide_eq_true_eq] at ha' hb'
    simp only [quote_le, ha', hb', decide_eq_true_eq]
    exact le_refl v
  have hsub : List.Sublist (qs.filter fun q => q.monthly_premium = v)
      (qs.mergeSort quote_le) :=
    List.sublist_mergeSort quote_le_trans quote_le_total hpair (List.filter_sublist qs)
  have hsub2 := hsub.filter (fun q => decide (q.monthly_premium = v))
  rw [List.filter_filter] at hsub2
  simp only [Bool.and_self] at hsub2
  have hlen : ((qs.mergeSort quote_le).filter (fun q => q.monthly_premium = v)).length
      = (qs.filter (fun q => q.monthly_premium = v)).length :=
    ((List.mergeSort_perm qs quote_le).filter _).length_eq
  exact (hsub2.eq_of_length hlen.symm).symm

/-! Concrete plans and requests used by witnesses and counterexamples. -/

/-- Plan of the worked example in the spec (the seeded "Term Secure" plan). -/
def examplePlan : Plan :=
  { insurer_id := "acme_id", name := "Term Secure", coverage_amount := 250000,
    term_years := 20, smoker_multiplier := 17/10, male_factor := 21/20,
    age_band := [25, 35, 45, 55], base_rates := [12, 18, 29, 48],
    features := ["Accelerated benefits", "Level premiums", "Convertible"] }

/-- Request of the worked example in the spec. -/
def exampleRequest : QuoteRequest :=
  { age := 40, gender := Gender.male, smoker := false,
    coverage_amount := 250000, term_years := 20 }

/-- Request identical to `exampleRequest` except one more $100k of coverage. -/
def exampleRequestUp : QuoteRequest :=
  { age := 40, gender := Gender.male, smoker := false,
    coverage_amount := 350000, term_years := 20 }

/-- Request identical to `exampleRequest` except `smoker := true`. -/
def exampleRequestSmoker : QuoteRequest :=
  { age := 40, gender := Gender.male, smoker := true,
    coverage_amount := 250000, term_years := 20 }

/-- Request used for the 25-year term-surcharge witness. -/
def exampleRequestLong : QuoteRequest :=
  { age := 40, gender := Gender.male, smoker := false,
    coverage_amount := 250000, term_years := 25 }

/-- Schema-valid plan with a negative base rate: `base_rates` carries no
lower bound in `schemas.py`, so this plan passes validation. -/
def negPlan : Plan :=
  { insurer_id := "neg_id", name := "Negative Rate", coverage_amount := 100000,
    term_years := 20, smoker_multiplier := 3/2, male_factor := 1,
    age_band := [25, 35, 45, 55], base_rates := [-12], features := [] }

/-- Valid request hitting `negPlan` with one coverage unit. -/
def negReqA : QuoteRequest :=
  { age := 30, gender := Gender.female, smoker := false,
    coverage_amount := 100000, term_years := 20 }

/-- Request `negReqA` with exactly one more $100k of coverage. -/
def negReqB : QuoteRequest :=
  { age := 30, gender := Gender.female, smoker := false,
    coverage_amount := 200000, term_years := 20 }

/-- Request `negReqA` with `smoker := true`. -/
def negReqSmoker : QuoteRequest :=
  { age := 30, gender := Gender.female, smoker := true,
    coverage_amount := 100000, term_years := 20 }

/-- Plan with an empty `age_band` but non-empty `base_rates`. -/
def noBandPlan : Plan :=
  { insurer_id := "nb_id", name := "No Band", coverage_amount := 100000,
    term_years := 20, smoker_multiplier := 3/2, male_factor := 1,
    age_band := [], base_rates := [7], features := [] }

/-- Catalog insurers for the dangling-reference witness. -/
def soloInsurers : List (String × Insurer) :=
  [("i1", { name := "Solo Life" })]

/-- Plan whose insurer exists in `soloInsurers`. -/
def livePlan : Plan :=
  { insurer_id := "i1", name := "Live", coverage_amount := 100000,
    term_years := 20, smoker_multiplier := 3/2, male_factor := 1,
    age_band := [25, 35, 45, 55], base_rates := [10], features := [] }

/-- Plan with a dangling `insurer_id`. -/
def danglingPlan : Plan :=
  { insurer_id := "ghost", name := "Dangling", coverage_amount := 100000,
    term_years := 20, smoker_multiplier := 3/2, male_factor := 1,
    age_band := [25, 35, 45, 55], base_rates := [10], features := [] }

/-- Two-plan catalog: one live reference, one dangling. -/
def twoPlans : List Plan :=
  [livePlan, danglingPlan]

/-- One-insurer, one-plan catalog used by the seed witness. -/
def smallDB : DB :=
  { insurers := [("i1", { name := "Solo Life" })],
    plans := [{ insurer_id := "i1", name := "Solo Plan", coverage_amount := 100000,
                term_years := 20, smoker_multiplier := 3/2, male_factor := 1,
                age_band := [25, 35, 45, 55], base_rates := [10], features := [] }] }

/-! The claims. -/

/-- C1: for every plan and validated request the rate index is the index of
the last `age_band` threshold `≤ request.age` (`0` when the age is below
every threshold), clamped to `len(base_rates) - 1`. -/
theorem C1_band_selection (p : Plan) (req : QuoteRequest) (hr : p.base_rates ≠ []) :
    clamped_idx p req
        = ((min (band_idx p.age_band req.age) (p.base_rates.length - 1) : ℕ) : ℤ) ∧
    ((∀ i : Fin p.age_band.length, req.age < p.age_band.get i) →
      band_idx p.age_band req.age = 0) ∧
    (∀ i : Fin p.age_band.length, p.age_band.get i ≤ req.age →
      (i : ℕ) ≤ band_idx p.age_band req.age ∧
      ∃ hlt : band_idx p.age_band req.age < p.age_band.length,
        p.age_band.get ⟨band_idx p.age_band req.age, hlt⟩ ≤ req.age) := by
  refine ⟨?_, ?_, ?_⟩
  · have h1 : 1 ≤ p.base_rates.length := List.length_pos.mpr hr
    unfold clamped_idx
    omega
  · intro hall
    rw [band_idx_eq_lastLE]
    have hnone : lastLE req.age p.age_band = none := by
      rw [lastLE_none_iff]
      intro b hb
      obtain ⟨i, hi⟩ := List.mem_iff_get.mp hb
      rw [← hi]
      exact hall i
    rw [hnone]
    rfl
  · intro i hi
    cases hLL : lastLE req.age p.age_band with
    | none =>
      exact absurd hi (not_le.mpr ((lastLE_none_iff req.age p.age_band).mp hLL
        (p.age_band.get i) (p.age_band.get_mem _ _)))
    | some j =>
      have hgd : band_idx p.age_band req.age = j := by
        rw [band_idx_eq_lastLE, hLL]
        rfl
      rw [hgd]
      exact ⟨lastLE_some_ge req.age p.age_band j hLL i i.isLt hi,
        lastLE_some_lt req.age p.age_band j hLL,
        lastLE_some_le req.age p.age_band j hLL _⟩

/-- Witness for C1 at the worked example: age 40 against bands
`[25, 35, 45, 55]` with four rates. -/
theorem C1_band_selection_witness :
    clamped_idx examplePlan exampleRequest
        = ((min (band_idx examplePlan.age_band exampleRequest.age)
            (examplePlan.base_rates.length - 1) : ℕ) : ℤ) ∧
    ((∀ i : Fin examplePlan.age_band.length,
        exampleRequest.age < examplePlan.age_band.get i) →
      band_idx examplePlan.age_band exampleRequest.age = 0) ∧
    (∀ i : Fin examplePlan.age_band.length,
        examplePlan.age_band.get i ≤ exampleRequest.age →
      (i : ℕ) ≤ band_idx examplePlan.age_band exampleRequest.age ∧
      ∃ hlt : band_idx examplePlan.age_band exampleRequest.age <
          examplePlan.age_band.length,
        examplePlan.age_band.get
          ⟨band_idx examplePlan.age_band exampleRequest.age, hlt⟩ ≤
            exampleRequest.age) :=
  C1_band_selection examplePlan exampleRequest (by decide)

/-- C3: the term-adjustment factor is
`1 + 0.01 * max(0, request.term_years - plan.term_years)`: exactly `1` when
the requested term does not exceed the plan's, and 1% per excess year
otherwise. -/
theorem C3_term_adjustment (p : Plan) (req : QuoteRequest) :
    term_adj p req = 1 + ((max 0 (req.term_years - p.term_years) : ℤ) : ℚ) * (1/100) ∧
    (req.term_years ≤ p.term_years → term_adj p req = 1) ∧
    (p.term_years < req.term_years →
      term_adj p req = 1 + ((req.term_years - p.term_years : ℤ) : ℚ) * (1/100)) := by
  refine ⟨rfl, ?_, ?_⟩
  · intro h
    unfold term_adj
    rw [max_eq_left (by omega : req.term_years - p.term_years ≤ 0)]
    norm_num
  · intro h
    unfold term_adj
    rw [max_eq_right (by omega : 0 ≤ req.term_years - p.term_years)]

/-- Witness for C3: a 20-year request on a 20-year plan has factor 1, and a
25-year request on the same plan has factor 1 + 5%. -/
theorem C3_term_adjustment_witness :
    term_adj examplePlan exampleRequest = 1 ∧
    term_adj examplePlan exampleRequestLong
      = 1 + ((exampleRequestLong.term_years - examplePlan.term_years : ℤ) : ℚ) * (1/100) :=
  ⟨(C3_term_adjustment examplePlan exampleRequest).2.1 (by decide),
   (C3_term_adjustment examplePlan exampleRequestLong).2.2 (by decide)⟩

/-- C8: with non-empty `base_rates` the calculator is total: the (only)
list index it performs is in bounds and it returns a value.  The embedding
is a pure function, so freedom from side effects holds by construction. -/
theorem C8_total (p : Plan) (req : QuoteRequest) (hr : p.base_rates ≠ []) :
    0 ≤ clamped_idx p req ∧ clamped_idx p req < p.base_rates.length ∧
    ∃ q, premium_from_plan p req = some q :=
  ⟨clamped_idx_nonneg p req hr, clamped_idx_lt p req, premium_isSome p req hr⟩

/-- Witness for C8 at the worked example. -/
theorem C8_total_witness :
    0 ≤ clamped_idx examplePlan exampleRequest ∧
    clamped_idx examplePlan exampleRequest < examplePlan.base_rates.length ∧
    ∃ q, premium_from_plan examplePlan exampleRequest = some q :=
  C8_total examplePlan exampleRequest (by decide)

/-- C9: seeding a catalog that already has at least one insurer and one plan
is a no-op returning the existing counts, and after seeding the catalog is
always non-empty on both collections. -/
theorem C9_seed_idempotent (s : DB) :
    (0 < s.insurers.length → 0 < s.plans.length →
      seed_data s = (s, { insurers := s.insurers.length, plans := s.plans.length })) ∧
    0 < (seed_data s).1.insurers.length ∧ 0 < (seed_data s).1.plans.length := by
  constructor
  · intro h1 h2
    unfold seed_data
    rw [if_pos ⟨h1, h2⟩]
  · unfold seed_data
    dsimp only
    split_ifs with h
    · exact ⟨h.1, h.2⟩
    · refine ⟨?_, ?_⟩ <;> simp [seed_insurers, seed_plans]

/-- Witness for C9: a catalog with one insurer and one plan is untouched by
seeding. -/
theorem C9_seed_idempotent_witness :
    seed_data smallDB
      = (smallDB, { insurers := smallDB.insurers.length, plans := smallDB.plans.length }) :=
  (C9_seed_idempotent smallDB).1 (by decide) (by decide)

/-- C10: with an empty `age_band` and non-empty `base_rates` the calculator
does not fail: the band index stays 0 and `base_rates[0]` is the per-$100k
rate, whatever the requester's age. -/
theorem C10_empty_band (p : Plan) (req : QuoteRequest) (hb : p.age_band = [])
    (hr : p.base_rates ≠ []) :
    band_idx p.age_band req.age = 0 ∧ clamped_idx p req = 0 ∧
    per_100k p req = some (p.base_rates.getD 0 0
      * (if req.gender = Gender.male then p.male_factor else 1)
      * (if req.smoker then p.smoker_multiplier else 1)) ∧
    ∃ q, premium_from_plan p req = some q := by
  have hbi : band_idx p.age_band req.age = 0 := by
    rw [hb]
    rfl
  have hci : clamped_idx p req = 0 := by
    have h1 : 1 ≤ p.base_rates.length := List.length_pos.mpr hr
    unfold clamped_idx
    rw [hbi]
    omega
  refine ⟨hbi, hci, ?_, premium_isSome p req hr⟩
  rw [per_100k_some p req hr, hci]
  norm_num

/-- Witness for C10: a bandless plan quotes from its single base rate for a
40-year-old. -/
theorem C10_empty_band_witness :
    band_idx noBandPlan.age_band exampleRequest.age = 0 ∧
    clamped_idx noBandPlan exampleRequest = 0 ∧
    per_100k noBandPlan exampleRequest = some (noBandPlan.base_rates.getD 0 0
      * (if exampleRequest.gender = Gender.male then noBandPlan.male_factor else 1)
      * (if exampleRequest.smoker then noBandPlan.smoker_multiplier else 1)) ∧
    ∃ q, premium_from_plan noBandPlan exampleRequest = some q :=
  C10_empty_band noBandPlan exampleRequest rfl (by decide)

lemma premium_none (p : Plan) (req : QuoteRequest) (h0 : p.base_rates = []) :
    premium_from_plan p req = none := by
  unfold premium_from_plan per_100k pyGet clamped_idx
  rw [h0]
  have hm : min ((band_idx p.age_band req.age : ℕ) : ℤ)
      (((List.length ([] : List ℚ)) : ℤ) - 1) = -1 := by
    simp only [List.length_nil]
    omega
  rw [hm]
  norm_num

/-- C2 counterexample: on the spec's worked example the code computes
`round(2.5) = 2` units (Python rounds ties to even), so the premium is
37.80, not the claimed 56.70. -/
theorem C2_example_counterexample :
    units_of exampleRequest = 2 ∧
    premium_from_plan examplePlan exampleRequest = some (189/5) ∧
    (189/5 : ℚ) ≠ 567/10 := by decide

/-- C2 amended: on the worked example the calculator selects `idx = 1`,
`per100k = 18 * 1.05 = 18.9`, `units = round(2.5) = 2` (ties to even),
`term_adj = 1.0`, and returns a monthly premium of 37.80. -/
theorem C2_example_amended :
    clamped_idx examplePlan exampleRequest = 1 ∧
    per_100k examplePlan exampleRequest = some (189/10) ∧
    units_of exampleRequest = 2 ∧
    term_adj examplePlan exampleRequest = 1 ∧
    premium_from_plan examplePlan exampleRequest = some (189/5) := by decide

/-- C4 counterexample: `base_rates` has no lower bound in the schema, so a
schema-valid plan with rate −12 prices more coverage strictly cheaper:
$100k gives −12.00 and $200k gives −24.00. -/
theorem C4_monotone_counterexample :
    negPlan.SchemaValid ∧ negReqA.Valid ∧ negReqB.Valid ∧
    negReqB = { negReqA with coverage_amount := negReqA.coverage_amount + 100000 } ∧
    premium_from_plan negPlan negReqA = some (-12) ∧
    premium_from_plan negPlan negReqB = some (-24) ∧
    ¬ ((-12 : ℚ) ≤ -24) := by decide

/-- C4 amended: for a schema-valid plan whose base rates are all
non-negative, adding a full $100k of coverage, everything else fixed, never
decreases the monthly premium. -/
theorem C4_monotone_amended (p : Plan) (req req' : QuoteRequest)
    (hp : p.SchemaValid) (hnn : ∀ r ∈ p.base_rates, 0 ≤ r)
    (hv : req.Valid) (hv' : req'.Valid)
    (he : req' = { req with coverage_amount := req.coverage_amount + 100000 })
    (q1 q2 : ℚ) (h1 : premium_from_plan p req = some q1)
    (h2 : premium_from_plan p req' = some q2) : q1 ≤ q2 := by
  subst he
  exact premium_mono_coverage p req hp hnn h1 h2

/-- Witness for the amended C4: on the worked example, $250k costs 37.80 and
$350k costs 75.60. -/
theorem C4_monotone_amended_witness : (189/5 : ℚ) ≤ 378/5 :=
  C4_monotone_amended examplePlan exampleRequest exampleRequestUp
    (by decide) (by decide) (by decide) (by decide) (by decide)
    (189/5) (378/5) (by decide) (by decide)

/-- C7 counterexample: with the same negative-rate schema-valid plan
(`smoker_multiplier = 1.5 > 1`), the smoker pays −18.00 and the non-smoker
−12.00, so the smoker premium is strictly smaller. -/
theorem C7_smoker_counterexample :
    negPlan.SchemaValid ∧ 1 < negPlan.smoker_multiplier ∧
    negReqA.Valid ∧ negReqSmoker.Valid ∧
    negReqA.smoker = false ∧ negReqSmoker = { negReqA with smoker := true } ∧
    premium_from_plan negPlan negReqA = some (-12) ∧
    premium_from_plan negPlan negReqSmoker = some (-18) ∧
    ¬ ((-12 : ℚ) ≤ -18) := by decide

/-- C7 amended: for a schema-valid plan with `smoker_multiplier > 1` whose
base rates are all non-negative, the smoker's premium is at least the
non-smoker's for otherwise identical requests. -/
theorem C7_smoker_amended (p : Plan) (req req' : QuoteRequest)
    (hp : p.SchemaValid) (hsm : 1 < p.smoker_multiplier)
    (hnn : ∀ r ∈ p.base_rates, 0 ≤ r)
    (hv : req.Valid) (hv' : req'.Valid)
    (hns : req.smoker = false) (he : req' = { req with smoker := true })
    (q1 q2 : ℚ) (h1 : premium_from_plan p req = some q1)
    (h2 : premium_from_plan p req' = some q2) : q1 ≤ q2 := by
  subst he
  have hr : p.base_rates ≠ [] := by
    intro h0
    rw [premium_none p req h0] at h1
    cases h1
  exact premium_mono_smoker p req hp hnn hr hns h1 h2

/-- Witness for the amended C7: on the worked example the non-smoker pays
37.80 and the smoker 64.26. -/
theorem C7_smoker_amended_witness : (189/5 : ℚ) ≤ 3213/50 :=
  C7_smoker_amended examplePlan exampleRequest exampleRequestSmoker
    (by decide) (by decide) (by decide) (by decide) (by decide)
    (by decide) (by decide)
    (189/5) (3213/50) (by decide) (by decide)

/-- C5: for any request and catalog (all plans carrying at least one base
rate), `get_quote` sorts the built quotes ascending by `monthly_premium`,
and quotes of equal premium keep the relative order in which their plans
were iterated (the built list is in catalog order). -/
theorem C5_sorted_stable (rid : String) (req : QuoteRequest) (plans : List Plan)
    (insurers : List (String × Insurer))
    (h : ∀ p ∈ plans, p.base_rates ≠ []) :
    ∃ qs, build_quotes rid req insurers plans = some qs ∧
      qs = (plans.filterMap fun p =>
        (premium_from_plan p req).bind fun prem =>
          (lookup_insurer insurers p.insurer_id).map fun ins =>
            mk_quote rid req p ins prem) ∧
      get_quote rid req plans insurers = some (qs.mergeSort quote_le) ∧
      (qs.mergeSort quote_le).Pairwise
        (fun a b => a.monthly_premium ≤ b.monthly_premium) ∧
      ∀ v : ℚ, (qs.mergeSort quote_le).filter (fun q => q.monthly_premium = v)
        = qs.filter (fun q => q.monthly_premium = v) := by
  refine ⟨_, build_quotes_eq_filterMap rid req insurers plans h, rfl, ?_,
    mergeSort_sorted_premium _, fun v => mergeSort_stable_premium _ v⟩
  unfold get_quote
  rw [build_quotes_eq_filterMap rid req insurers plans h]
  rfl

/-- Witness for C5 on the seeded catalog and the worked example request. -/
theorem C5_sorted_stable_witness :
    ∃ qs, build_quotes "req_1" exampleRequest seed_insurers seed_plans = some qs ∧
      qs = (seed_plans.filterMap fun p =>
        (premium_from_plan p exampleRequest).bind fun prem =>
          (lookup_insurer seed_insurers p.insurer_id).map fun ins =>
            mk_quote "req_1" exampleRequest p ins prem) ∧
      get_quote "req_1" exampleRequest seed_plans seed_insurers
        = some (qs.mergeSort quote_le) ∧
      (qs.mergeSort quote_le).Pairwise
        (fun a b => a.monthly_premium ≤ b.monthly_premium) ∧
      ∀ v : ℚ, (qs.mergeSort quote_le).filter (fun q => q.monthly_premium = v)
        = qs.filter (fun q => q.monthly_premium = v) :=
  C5_sorted_stable "req_1" exampleRequest seed_plans seed_insurers (by decide)

/-- C6: the quote loop yields exactly one quote per plan whose `insurer_id`
matches a catalog insurer and none for a dangling reference, without
failing: the result is `some` list whose length counts the matched plans. -/
theorem C6_one_quote_per_live_plan (rid : String) (req : QuoteRequest)
    (plans : List Plan) (insurers : List (String × Insurer))
    (h : ∀ p ∈ plans, p.base_rates ≠ []) :
    build_quotes rid req insurers plans =
      some (plans.filterMap fun p =>
        (premium_from_plan p req).bind fun prem =>
          (lookup_insurer insurers p.insurer_id).map fun ins =>
            mk_quote rid req p ins prem) ∧
    ∃ qs, build_quotes rid req insurers plans = some qs ∧
      qs.length = (plans.filter fun p =>
        (lookup_insurer insurers p.insurer_id).isSome).length :=
  ⟨build_quotes_eq_filterMap rid req insurers plans h,
   build_quotes_length rid req insurers plans h⟩

/-- Witness for C6: a two-plan catalog where the second plan's insurer is
missing yields exactly one quote and no error. -/
theorem C6_one_quote_per_live_plan_witness :
    build_quotes "req_2" exampleRequest soloInsurers twoPlans =
      some (twoPlans.filterMap fun p =>
        (premium_from_plan p exampleRequest).bind fun prem =>
          (lookup_insurer soloInsurers p.insurer_id).map fun ins =>
            mk_quote "req_2" exampleRequest p ins prem) ∧
    ∃ qs, build_quotes "req_2" exampleRequest soloInsurers twoPlans = some qs ∧
      qs.length = (twoPlans.filter fun p =>
        (lookup_insurer soloInsurers p.insurer_id).isSome).length :=
  C6_one_quote_per_live_plan "req_2" exampleRequest twoPlans soloInsurers (by decide)

end Model
